import Mathlib

/-!
Verification of the benchmark harness utilities.

Shallow embedding of three Python modules:
* `torchbenchmark/util/experiment/metrics.py` — latency / peak-memory /
  throughput measurement and the benchmark-config driver;
* `userbenchmark/torchao/upload.py` — CSV metadata decoration;
* `scripts/userbenchmark/upload_s3_csv.py` — upload file selection.

External effects (the model callback, wall-clock reads, the memory-monitor
process, environment variables, file contents) are passed in as explicit
oracles; machine events (invocations, monitor start/stop) are recorded in
explicit traces so that resource-handling claims can be stated.
-/

/-! ## Constants of metrics.py -/

def WARMUP_ROUNDS : Nat := 10

def BENCHMARK_ITERS : Nat := 15

def MEMPROF_ITER : Nat := 2

/-- `NANOSECONDS_PER_MILLISECONDS = 1_000_000.0`; durations are modelled as
exact rationals, so the float constant becomes the rational `1000000`. -/
def NANOSECONDS_PER_MILLISECONDS : ℚ := 1000000

/-! ## The metrics record (`TorchBenchModelMetrics` dataclass) -/

/-- The `TorchBenchModelMetrics` dataclass.  Float-valued fields are modelled
as rationals; `accuracy` is the value returned by the accuracy evaluator
(a string in the code). -/
structure TorchBenchModelMetrics where
  latencies : List ℚ
  throughputs : List ℚ
  accuracy : Option String
  cpu_peak_mem : Option ℚ
  gpu_peak_mem : Option ℚ
  ttfb : Option ℚ
  pt2_compilation_time : Option ℚ
  pt2_graph_breaks : Option ℚ
  model_flops : Option ℚ
  error_msg : Option String
deriving Repr, DecidableEq

/-- The all-default record constructed at the start of `get_model_test_metrics`
and `run_config` (every field at its absent value). -/
def emptyMetrics : TorchBenchModelMetrics :=
  { latencies := []
    throughputs := []
    accuracy := none
    cpu_peak_mem := none
    gpu_peak_mem := none
    ttfb := none
    pt2_compilation_time := none
    pt2_graph_breaks := none
    model_flops := none
    error_msg := none }

/-- Decidable equality of `Except` results, used to evaluate the model on
concrete inputs. -/
instance instDecidableEqExcept {e a : Type} [DecidableEq e] [DecidableEq a] :
    DecidableEq (Except e a)
  | .error x, .error y =>
      if h : x = y then isTrue (congrArg Except.error h)
      else isFalse (fun hc => h (by injection hc))
  | .error _, .ok _ => isFalse (fun hc => Except.noConfusion hc)
  | .ok _, .error _ => isFalse (fun hc => Except.noConfusion hc)
  | .ok x, .ok y =>
      if h : x = y then isTrue (congrArg Except.ok h)
      else isFalse (fun hc => h (by injection hc))

/-! ## `get_latencies`

The callback `func` is opaque; what matters for the claims is how many times
it is invoked and which timing windows are recorded.  We thread an explicit
invocation counter and take a duration oracle `winNs k` giving the wall-clock
nanoseconds of the timing window around the `k`-th invocation (for `cuda`
devices the window includes the bracketing synchronizations; the oracle is
arbitrary, so this covers both branches of the `if device == "cuda"`). -/

/-- State of the opaque callback: the number of invocations made so far. -/
structure InvokeState where
  calls : Nat
deriving Repr, DecidableEq

/-- One `func()` call. -/
def invokeFunc (s : InvokeState) : InvokeState :=
  { calls := s.calls + 1 }

/-- The warm-up loop `for _i in range(nwarmup): func()`. -/
def warmupLoop : Nat → InvokeState → InvokeState
  | 0, s => s
  | n + 1, s => warmupLoop n (invokeFunc s)

/-- The measurement loop `for _i in range(num_iter)`: each pass invokes the
callback once inside a timing window and appends `(t1 - t0) /
NANOSECONDS_PER_MILLISECONDS` to `result_summary`. -/
def measureLoop (winNs : Nat → ℚ) : Nat → InvokeState → List ℚ → InvokeState × List ℚ
  | 0, s, acc => (s, acc)
  | n + 1, s, acc =>
      measureLoop winNs n (invokeFunc s)
        (acc ++ [winNs s.calls / NANOSECONDS_PER_MILLISECONDS])

/-- `get_latencies(func, device, nwarmup, num_iter)`: warm up, then measure.
Returns the final callback state (exposing the total invocation count) and
the recorded per-iteration latencies in milliseconds, in order. -/
def get_latencies (winNs : Nat → ℚ) (nwarmup num_iter : Nat) :
    InvokeState × List ℚ :=
  let s := warmupLoop nwarmup { calls := 0 }
  measureLoop winNs num_iter s []

theorem warmupLoop_calls (n : Nat) (s : InvokeState) :
    (warmupLoop n s).calls = s.calls + n := by
  induction n generalizing s with
  | zero => simp [warmupLoop]
  | succ k ih =>
      rw [warmupLoop, ih]
      simp [invokeFunc]
      omega

theorem measureLoop_spec (winNs : Nat → ℚ) (n : Nat) :
    ∀ (s : InvokeState) (acc : List ℚ),
      measureLoop winNs n s acc =
        ({ calls := s.calls + n },
          acc ++ (List.range n).map
            (fun i => winNs (s.calls + i) / NANOSECONDS_PER_MILLISECONDS)) := by
  induction n with
  | zero => intro s acc; simp [measureLoop]
  | succ k ih =>
      intro s acc
      rw [measureLoop, ih]
      refine Prod.ext ?_ ?_
      · simp [invokeFunc]; omega
      · simp only [invokeFunc, List.range_succ_eq_map, List.map_cons,
          List.map_map, List.append_assoc, List.singleton_append]
        refine congrArg (acc ++ ·) (congrArg (_ :: ·) ?_)
        refine List.map_congr_left ?_
        intro i _
        simp [Function.comp]
        ring_nf

/-- C8: for every warmup count `w` and iteration count `n`, `get_latencies`
invokes the callback exactly `w + n` times and returns the list of exactly
`n` per-iteration latencies, in the order the iterations ran (the `i`-th
returned latency is the window of the `(w+i)`-th invocation). -/
theorem get_latencies_spec (winNs : Nat → ℚ) (w n : Nat) :
    (get_latencies winNs w n).1.calls = w + n ∧
    (get_latencies winNs w n).2.length = n ∧
    (get_latencies winNs w n).2 =
      (List.range n).map
        (fun i => winNs (w + i) / NANOSECONDS_PER_MILLISECONDS) := by
  have hw : (warmupLoop w { calls := 0 }).calls = w := by
    simpa using warmupLoop_calls w { calls := 0 }
  unfold get_latencies
  rw [measureLoop_spec, hw]
  refine ⟨rfl, by simp, by simp⟩

/-! ## `get_peak_memory`

The memory monitor and the callback are external effects; we record them in
an explicit event trace.  The callback may raise (a `funcOk` oracle says
whether the `k`-th invocation of this call returns normally), which is what
the monitor-release claim is about. -/

/-- Observable events of `get_peak_memory`: callback invocations (indexed in
order) and the `start_monitor` / `stop_monitor` calls on the analyzer. -/
inductive MemEvent where
  | invoke (idx : Nat)
  | startMonitor
  | stopMonitor
deriving Repr, DecidableEq

/-- Errors that `get_peak_memory` can propagate: the `ValueError` raised for
a metrics-needed list naming neither memory metric, and an exception raised
by the measured callback. -/
inductive PeakMemError where
  | configError
  | funcError
deriving Repr, DecidableEq

/-- The measurement loop `for _i in range(num_iter): work_func()` starting at
invocation index `idx`: returns the invocation events that happened and
whether every invocation returned normally (on the first failure the loop
aborts, as the exception propagates). -/
def memLoop (funcOk : Nat → Bool) : Nat → Nat → List MemEvent × Bool
  | _, 0 => ([], true)
  | idx, n + 1 =>
      if funcOk idx then
        let r := memLoop funcOk (idx + 1) n
        (MemEvent.invoke idx :: r.1, r.2)
      else
        ([MemEvent.invoke idx], false)

/-- `get_peak_memory(func, device, num_iter, export_metrics_file,
metrics_needed, metrics_gpu_backend, cpu_monitored_pid)`.

Oracles: `funcOk k` — whether the `k`-th invocation in this call returns
normally; `probeNs` — the wall-clock nanoseconds of the single timed probe
invocation; `cpuMemVal`, `gpuMemVal`, `deviceIdVal` — the analyzer's
aggregated results.  Returns the outcome (the `(cpu_peak_mem, device_id,
gpu_peak_mem)` triple, or the propagated error) together with the event
trace. -/
def get_peak_memory (funcOk : Nat → Bool) (probeNs : ℚ)
    (cpuMemVal gpuMemVal : ℚ) (deviceIdVal : String)
    (num_iter : Nat) (metrics_needed : List String) :
    Except PeakMemError (Option ℚ × Option String × Option ℚ) × List MemEvent :=
  let new_metrics_needed :=
    metrics_needed.filter (fun m => m == "cpu_peak_mem" || m == "gpu_peak_mem")
  if new_metrics_needed.isEmpty then
    (.error .configError, [])
  else
    -- `continue_num_iter = BENCHMARK_ITERS - num_iter` is computed but never
    -- used by the rest of the function.
    let _continue_num_iter := BENCHMARK_ITERS - num_iter
    -- the single timed probe `work_func()` (invocation index 0)
    if funcOk 0 then
      -- the probe duration strictly below 15 ms switches the iteration
      -- count to BENCHMARK_ITERS; otherwise it is reset to MEMPROF_ITER.
      -- Either way the `num_iter` argument is overwritten.
      let run_iter :=
        if probeNs < 15 * NANOSECONDS_PER_MILLISECONDS then BENCHMARK_ITERS
        else MEMPROF_ITER
      let r := memLoop funcOk 1 run_iter
      if r.2 then
        let device_id :=
          if metrics_needed.contains "gpu_peak_mem" then some deviceIdVal else none
        let gpu_peak_mem :=
          if metrics_needed.contains "gpu_peak_mem" then some gpuMemVal else none
        let cpu_peak_mem :=
          if metrics_needed.contains "cpu_peak_mem" then some cpuMemVal else none
        (.ok (cpu_peak_mem, device_id, gpu_peak_mem),
          [MemEvent.invoke 0, MemEvent.startMonitor] ++ r.1 ++ [MemEvent.stopMonitor])
      else
        (.error .funcError,
          [MemEvent.invoke 0, MemEvent.startMonitor] ++ r.1)
    else
      (.error .funcError, [MemEvent.invoke 0])

theorem memLoop_all_ok (funcOk : Nat → Bool) (h : ∀ k, funcOk k = true) :
    ∀ (n idx : Nat),
      memLoop funcOk idx n =
        ((List.range n).map (fun j => MemEvent.invoke (idx + j)), true) := by
  intro n
  induction n with
  | zero => intro idx; simp [memLoop]
  | succ k ih =>
      intro idx
      rw [memLoop]
      simp only [h idx, if_true, ih (idx + 1)]
      simp only [List.range_succ_eq_map, List.map_cons, List.map_map]
      refine Prod.ext ?_ rfl
      simp only []
      refine congrArg (MemEvent.invoke idx :: ·) ?_
      refine List.map_congr_left ?_
      intro j _
      simp [Function.comp]
      omega

theorem memLoop_events_are_invocations (funcOk : Nat → Bool) :
    ∀ (n idx : Nat) (e : MemEvent), e ∈ (memLoop funcOk idx n).1 → ∃ j, e = MemEvent.invoke j := by
  intro n
  induction n with
  | zero => intro idx e he; simp [memLoop] at he
  | succ k ih =>
      intro idx e he
      rw [memLoop] at he
      by_cases hf : funcOk idx
      · simp only [hf, if_true, List.mem_cons] at he
        rcases he with he | he
        · exact ⟨idx, he⟩
        · exact ih (idx + 1) e he
      · simp only [hf, if_false, Bool.false_eq_true, List.mem_singleton] at he
        exact ⟨idx, he⟩

theorem peak_filter_empty_iff (metrics_needed : List String) :
    (metrics_needed.filter
        (fun m => m == "cpu_peak_mem" || m == "gpu_peak_mem")).isEmpty = true ↔
      ("cpu_peak_mem" ∉ metrics_needed ∧ "gpu_peak_mem" ∉ metrics_needed) := by
  rw [List.isEmpty_iff, List.filter_eq_nil_iff]
  constructor
  · intro h
    constructor
    · intro hc; have := h _ hc; simp at this
    · intro hg; have := h _ hg; simp at this
  · rintro ⟨hc, hg⟩ m hm
    simp only [Bool.or_eq_true, beq_iff_eq, not_or]
    constructor
    · intro hrm; exact hc (hrm ▸ hm)
    · intro hrm; exact hg (hrm ▸ hm)

/-- C9: `get_peak_memory` fails with the configuration error exactly when the
`metrics_needed` argument contains neither `"cpu_peak_mem"` nor
`"gpu_peak_mem"`; and in that case it does so before any event — before
starting the monitor and before invoking the callback (the trace is empty). -/
theorem get_peak_memory_config_error_iff (funcOk : Nat → Bool)
    (probeNs cpuMemVal gpuMemVal : ℚ) (deviceIdVal : String)
    (num_iter : Nat) (metrics_needed : List String) :
    ((get_peak_memory funcOk probeNs cpuMemVal gpuMemVal deviceIdVal
        num_iter metrics_needed).1 = .error .configError ↔
      ("cpu_peak_mem" ∉ metrics_needed ∧ "gpu_peak_mem" ∉ metrics_needed)) ∧
    (("cpu_peak_mem" ∉ metrics_needed ∧ "gpu_peak_mem" ∉ metrics_needed) →
      (get_peak_memory funcOk probeNs cpuMemVal gpuMemVal deviceIdVal
        num_iter metrics_needed).2 = []) := by
  by_cases hemp : (metrics_needed.filter
      (fun m => m == "cpu_peak_mem" || m == "gpu_peak_mem")).isEmpty
  · have hmem := (peak_filter_empty_iff metrics_needed).mp hemp
    exact ⟨by simp [get_peak_memory, hemp, hmem], fun _ => by simp [get_peak_memory, hemp]⟩
  · have hmem : ¬("cpu_peak_mem" ∉ metrics_needed ∧ "gpu_peak_mem" ∉ metrics_needed) :=
      fun hc => hemp ((peak_filter_empty_iff metrics_needed).mpr hc)
    have hemp' : (metrics_needed.filter
        (fun m => m == "cpu_peak_mem" || m == "gpu_peak_mem")).isEmpty = false := by
      simpa using hemp
    refine ⟨⟨fun hres => ?_, fun hc => absurd hc hmem⟩, fun hc => absurd hc hmem⟩
    exfalso
    by_cases h0 : funcOk 0
    · by_cases hr : (memLoop funcOk 1
          (if probeNs < 15 * NANOSECONDS_PER_MILLISECONDS then BENCHMARK_ITERS
           else MEMPROF_ITER)).2
      · simp [get_peak_memory, hemp', h0, hr] at hres
      · simp [get_peak_memory, hemp', h0, hr] at hres
    · simp [get_peak_memory, hemp', h0] at hres

/-- Witness for C9 at the concrete input `metrics_needed = ["latencies"]`:
the configuration error is raised and the trace is empty. -/
theorem get_peak_memory_config_error_iff_witness :
    (get_peak_memory (fun _ => true) 0 0 0 "0" MEMPROF_ITER ["latencies"]).1
        = .error .configError ∧
    (get_peak_memory (fun _ => true) 0 0 0 "0" MEMPROF_ITER ["latencies"]).2 = [] := by
  refine ⟨?_, ?_⟩
  · exact ((get_peak_memory_config_error_iff (fun _ => true) 0 0 0 "0"
      MEMPROF_ITER ["latencies"]).1).mpr (by decide)
  · exact (get_peak_memory_config_error_iff (fun _ => true) 0 0 0 "0"
      MEMPROF_ITER ["latencies"]).2 (by decide)

/-- C6: whatever value is passed for `num_iter`, the measurement pass (the
invocations between `start_monitor` and `stop_monitor`) runs 15 iterations
if and only if the timed probe invocation took strictly less than 15 ms, and
otherwise exactly 2. -/
theorem get_peak_memory_adaptive_iters (funcOk : Nat → Bool)
    (probeNs cpuMemVal gpuMemVal : ℚ) (deviceIdVal : String)
    (num_iter : Nat) (metrics_needed : List String)
    (hreq : "cpu_peak_mem" ∈ metrics_needed ∨ "gpu_peak_mem" ∈ metrics_needed)
    (hok : ∀ k, funcOk k = true) :
    ∃ evs,
      (get_peak_memory funcOk probeNs cpuMemVal gpuMemVal deviceIdVal
          num_iter metrics_needed).2
        = [MemEvent.invoke 0, MemEvent.startMonitor] ++ evs
            ++ [MemEvent.stopMonitor] ∧
      (∀ e ∈ evs, ∃ j, e = MemEvent.invoke j) ∧
      (probeNs < 15 * NANOSECONDS_PER_MILLISECONDS → evs.length = 15) ∧
      (¬ probeNs < 15 * NANOSECONDS_PER_MILLISECONDS → evs.length = 2) := by
  have hemp : (metrics_needed.filter
      (fun m => m == "cpu_peak_mem" || m == "gpu_peak_mem")).isEmpty = false := by
    rw [Bool.eq_false_iff]
    intro h
    have := (peak_filter_empty_iff _).mp h
    tauto
  by_cases hc : probeNs < 15 * NANOSECONDS_PER_MILLISECONDS
  · refine ⟨(List.range BENCHMARK_ITERS).map (fun j => MemEvent.invoke (1 + j)),
      ?_, ?_, ?_, ?_⟩
    · simp [get_peak_memory, hemp, hok 0, hc, memLoop_all_ok funcOk hok]
    · intro e he
      simp only [List.mem_map, List.mem_range] at he
      obtain ⟨j, _, rfl⟩ := he
      exact ⟨1 + j, rfl⟩
    · intro _; simp [BENCHMARK_ITERS]
    · intro hnc; exact absurd hc hnc
  · refine ⟨(List.range MEMPROF_ITER).map (fun j => MemEvent.invoke (1 + j)),
      ?_, ?_, ?_, ?_⟩
    · simp [get_peak_memory, hemp, hok 0, hc, memLoop_all_ok funcOk hok]
    · intro e he
      simp only [List.mem_map, List.mem_range] at he
      obtain ⟨j, _, rfl⟩ := he
      exact ⟨1 + j, rfl⟩
    · intro hlt; exact absurd hlt hc
    · intro _; simp [MEMPROF_ITER]

/-- Witness for C6 at a concrete input: a sub-15 ms probe with `num_iter = 7`
still produces a trace of 18 events (probe, start, 15 iterations, stop). -/
theorem get_peak_memory_adaptive_iters_witness :
    (get_peak_memory (fun _ => true) 0 0 0 "0" 7 ["cpu_peak_mem"]).2.length = 18 := by
  obtain ⟨evs, htr, _, h15, _⟩ :=
    get_peak_memory_adaptive_iters (fun _ => true) 0 0 0 "0" 7 ["cpu_peak_mem"]
      (Or.inl (by decide)) (fun _ => rfl)
  rw [htr]
  have : evs.length = 15 := h15 (by norm_num [NANOSECONDS_PER_MILLISECONDS])
  simp [this]

theorem memLoop_fail_first (funcOk : Nat → Bool) (idx n : Nat)
    (h : funcOk idx = false) :
    memLoop funcOk idx (n + 1) = ([MemEvent.invoke idx], false) := by
  rw [memLoop, h]
  simp

/-- C5 counterexample: with a callback that returns normally for the probe
invocation and raises on the first monitored iteration, `get_peak_memory`
propagates the error with the monitor started but never stopped. -/
theorem get_peak_memory_monitor_counterexample :
    (get_peak_memory (fun k => k == 0) 0 0 0 "0" MEMPROF_ITER ["cpu_peak_mem"]).1
        = .error .funcError ∧
    MemEvent.startMonitor ∈
      (get_peak_memory (fun k => k == 0) 0 0 0 "0" MEMPROF_ITER ["cpu_peak_mem"]).2 ∧
    MemEvent.stopMonitor ∉
      (get_peak_memory (fun k => k == 0) 0 0 0 "0" MEMPROF_ITER ["cpu_peak_mem"]).2 := by
  have hc : (0 : ℚ) < 15 * NANOSECONDS_PER_MILLISECONDS := by
    norm_num [NANOSECONDS_PER_MILLISECONDS]
  have hm : memLoop (fun k => k == 0) 1 BENCHMARK_ITERS
      = ([MemEvent.invoke 1], false) :=
    memLoop_fail_first (fun k => k == 0) 1 14 rfl
  refine ⟨?_, ?_, ?_⟩ <;> simp [get_peak_memory, hc, hm]

/-- C5 amended: once the background monitor has been started, it is stopped
exactly on the normal exit path — it is stopped iff the call returns a
result; when a measured invocation raises, the error propagates to the
caller without `stop_monitor` ever being called. -/
theorem get_peak_memory_monitor_amended (funcOk : Nat → Bool)
    (probeNs cpuMemVal gpuMemVal : ℚ) (deviceIdVal : String)
    (num_iter : Nat) (metrics_needed : List String)
    (hstart : MemEvent.startMonitor ∈
      (get_peak_memory funcOk probeNs cpuMemVal gpuMemVal deviceIdVal
        num_iter metrics_needed).2) :
    (MemEvent.stopMonitor ∈
        (get_peak_memory funcOk probeNs cpuMemVal gpuMemVal deviceIdVal
          num_iter metrics_needed).2 ↔
      ∃ v, (get_peak_memory funcOk probeNs cpuMemVal gpuMemVal deviceIdVal
          num_iter metrics_needed).1 = .ok v) := by
  by_cases hemp : (metrics_needed.filter
      (fun m => m == "cpu_peak_mem" || m == "gpu_peak_mem")).isEmpty
  · exfalso; simp [get_peak_memory, hemp] at hstart
  · have hemp' : (metrics_needed.filter
        (fun m => m == "cpu_peak_mem" || m == "gpu_peak_mem")).isEmpty = false := by
      simpa using hemp
    by_cases h0 : funcOk 0
    · by_cases hr : (memLoop funcOk 1
          (if probeNs < 15 * NANOSECONDS_PER_MILLISECONDS then BENCHMARK_ITERS
           else MEMPROF_ITER)).2
      · constructor
        · intro _
          refine ⟨(if metrics_needed.contains "cpu_peak_mem" then some cpuMemVal else none,
              if metrics_needed.contains "gpu_peak_mem" then some deviceIdVal else none,
              if metrics_needed.contains "gpu_peak_mem" then some gpuMemVal else none), ?_⟩
          simp [get_peak_memory, hemp', h0, hr]
        · intro _
          simp [get_peak_memory, hemp', h0, hr]
      · constructor
        · intro hstop
          exfalso
          simp only [get_peak_memory, hemp', Bool.false_eq_true, if_false, h0,
            if_true, hr, List.cons_append, List.nil_append, List.mem_cons,
            reduceCtorEq, false_or] at hstop
          obtain ⟨j, hj⟩ := memLoop_events_are_invocations funcOk _ 1 _ hstop
          exact MemEvent.noConfusion hj
        · rintro ⟨v, hv⟩
          exfalso
          simp [get_peak_memory, hemp', h0, hr] at hv
    · exfalso
      simp [get_peak_memory, hemp', h0] at hstart

/-- Witness for C5 (amended) at a concrete input: with a callback that never
raises, the started monitor is indeed stopped. -/
theorem get_peak_memory_monitor_amended_witness :
    MemEvent.stopMonitor ∈
      (get_peak_memory (fun _ => true) 0 0 0 "0" MEMPROF_ITER ["cpu_peak_mem"]).2 := by
  have hc : (0 : ℚ) < 15 * NANOSECONDS_PER_MILLISECONDS := by
    norm_num [NANOSECONDS_PER_MILLISECONDS]
  have hml := memLoop_all_ok (fun _ => true) (fun _ => rfl) BENCHMARK_ITERS 1
  have hres : (get_peak_memory (fun _ => true) 0 0 0 "0" MEMPROF_ITER
      ["cpu_peak_mem"]).1 = .ok (some 0, none, none) := by
    simp [get_peak_memory, hc, hml]
  have hstart : MemEvent.startMonitor ∈
      (get_peak_memory (fun _ => true) 0 0 0 "0" MEMPROF_ITER ["cpu_peak_mem"]).2 := by
    simp [get_peak_memory, hc, hml]
  exact (get_peak_memory_monitor_amended (fun _ => true) 0 0 0 "0"
    MEMPROF_ITER ["cpu_peak_mem"] hstart).mpr ⟨_, hres⟩

/-! ## `get_model_test_metrics`

The model handle's externally supplied data — callback timing windows,
analyzer results, attribute values (`pt2_compilation_time`,
`pt2_graph_breaks`, `ttfb`), flop count and batch size — are gathered in a
single oracle structure.  `get_model_test_metrics` can propagate an error
raised inside `get_peak_memory`; otherwise it returns the populated
record. -/

/-- Externally supplied behaviour of the model handle (covering both the
in-process `BenchmarkModel` and the subprocess `ModelTask` branches, which
read the same values through different calls). -/
structure ModelOracle where
  winNs : Nat → ℚ
  funcOk : Nat → Bool
  probeNs : ℚ
  cpuMemVal : ℚ
  gpuMemVal : ℚ
  deviceIdVal : String
  batch_size : ℚ
  pt2_compilation_time_attr : Option ℚ
  pt2_graph_breaks_attr : Option ℚ
  ttfb_attr : Option ℚ
  flopsVal : ℚ

/-- `get_model_test_metrics(model, required_metrics, export_metrics_file,
metrics_gpu_backend, nwarmup, num_iter)`: construct the empty record, then
populate each field whose guard names it in `required_metrics`.  Each result
field is given by its guarded assignment in the source; `throughputs` reads
the `latencies` field assigned just before it. -/
def get_model_test_metrics (M : ModelOracle) (required_metrics : List String)
    (nwarmup num_iter : Nat) : Except PeakMemError TorchBenchModelMetrics :=
  let lat :=
    if required_metrics.contains "latencies"
        || required_metrics.contains "throughputs" then
      (get_latencies M.winNs nwarmup num_iter).2
    else emptyMetrics.latencies
  let peakRes :=
    if required_metrics.contains "cpu_peak_mem"
        || required_metrics.contains "gpu_peak_mem" then
      (get_peak_memory M.funcOk M.probeNs M.cpuMemVal M.gpuMemVal M.deviceIdVal
        MEMPROF_ITER required_metrics).1.map some
    else .ok none
  match peakRes with
  | .error e => .error e
  | .ok peak =>
    .ok { latencies := lat
          throughputs :=
            if required_metrics.contains "throughputs" then
              lat.map (fun latency => M.batch_size * 1000 / latency)
            else emptyMetrics.throughputs
          accuracy := emptyMetrics.accuracy
          cpu_peak_mem :=
            match peak with
            | some (c, _device_id, _g) => c
            | none => emptyMetrics.cpu_peak_mem
          gpu_peak_mem :=
            match peak with
            | some (_c, _device_id, g) => g
            | none => emptyMetrics.gpu_peak_mem
          ttfb :=
            if required_metrics.contains "ttfb" then M.ttfb_attr
            else emptyMetrics.ttfb
          pt2_compilation_time :=
            if required_metrics.contains "pt2_compilation_time" then
              M.pt2_compilation_time_attr
            else emptyMetrics.pt2_compilation_time
          pt2_graph_breaks :=
            if required_metrics.contains "pt2_graph_breaks" then
              M.pt2_graph_breaks_attr
            else emptyMetrics.pt2_graph_breaks
          model_flops :=
            if required_metrics.contains "model_flops" then some M.flopsVal
            else emptyMetrics.model_flops
          error_msg := emptyMetrics.error_msg }

theorem get_peak_memory_ok_shape (funcOk : Nat → Bool)
    (probeNs cpuMemVal gpuMemVal : ℚ) (deviceIdVal : String)
    (num_iter : Nat) (metrics_needed : List String)
    (v : Option ℚ × Option String × Option ℚ)
    (h : (get_peak_memory funcOk probeNs cpuMemVal gpuMemVal deviceIdVal
        num_iter metrics_needed).1 = .ok v) :
    v = (if metrics_needed.contains "cpu_peak_mem" then some cpuMemVal else none,
         if metrics_needed.contains "gpu_peak_mem" then some deviceIdVal else none,
         if metrics_needed.contains "gpu_peak_mem" then some gpuMemVal else none) := by
  by_cases hemp : (metrics_needed.filter
      (fun m => m == "cpu_peak_mem" || m == "gpu_peak_mem")).isEmpty
  · simp [get_peak_memory, hemp] at h
  · have hemp' : (metrics_needed.filter
        (fun m => m == "cpu_peak_mem" || m == "gpu_peak_mem")).isEmpty = false := by
      simpa using hemp
    by_cases h0 : funcOk 0
    · by_cases hr : (memLoop funcOk 1
          (if probeNs < 15 * NANOSECONDS_PER_MILLISECONDS then BENCHMARK_ITERS
           else MEMPROF_ITER)).2
      · simp only [get_peak_memory, hemp', Bool.false_eq_true, if_false, h0,
          if_true, hr, Except.ok.injEq] at h
        exact h.symm
      · simp [get_peak_memory, hemp', h0, hr] at h
    · simp [get_peak_memory, hemp', h0] at h


theorem get_model_test_metrics_ok_shape (M : ModelOracle) (req : List String)
    (nwarmup num_iter : Nat) (m : TorchBenchModelMetrics)
    (hok : get_model_test_metrics M req nwarmup num_iter = .ok m) :
    m = { latencies :=
            if req.contains "latencies" || req.contains "throughputs" then
              (get_latencies M.winNs nwarmup num_iter).2
            else []
          throughputs :=
            if req.contains "throughputs" then
              (get_latencies M.winNs nwarmup num_iter).2.map
                (fun latency => M.batch_size * 1000 / latency)
            else []
          accuracy := none
          cpu_peak_mem :=
            if req.contains "cpu_peak_mem" then some M.cpuMemVal else none
          gpu_peak_mem :=
            if req.contains "gpu_peak_mem" then some M.gpuMemVal else none
          ttfb := if req.contains "ttfb" then M.ttfb_attr else none
          pt2_compilation_time :=
            if req.contains "pt2_compilation_time" then M.pt2_compilation_time_attr
            else none
          pt2_graph_breaks :=
            if req.contains "pt2_graph_breaks" then M.pt2_graph_breaks_attr
            else none
          model_flops :=
            if req.contains "model_flops" then some M.flopsVal else none
          error_msg := none } := by
  by_cases hpk : ("cpu_peak_mem" ∈ req ∨ "gpu_peak_mem" ∈ req)
  · have hpkB : (req.contains "cpu_peak_mem" || req.contains "gpu_peak_mem") = true := by
      simpa using hpk
    rcases hres : (get_peak_memory M.funcOk M.probeNs M.cpuMemVal M.gpuMemVal
        M.deviceIdVal MEMPROF_ITER req).1 with e | v
    · simp [get_model_test_metrics, hpk, hpkB, hres, Except.map] at hok
    · have hv := get_peak_memory_ok_shape M.funcOk M.probeNs M.cpuMemVal
        M.gpuMemVal M.deviceIdVal MEMPROF_ITER req v hres
      subst hv
      simp only [get_model_test_metrics, hpkB, if_true, hres, Except.map,
        Except.ok.injEq] at hok
      rw [← hok]
      by_cases hthr : "throughputs" ∈ req
      · simp [hthr, emptyMetrics]
      · simp [hthr, emptyMetrics]
  · have hpkB : (req.contains "cpu_peak_mem" || req.contains "gpu_peak_mem") = false := by
      simpa [not_or] using hpk
    have hcpu : req.contains "cpu_peak_mem" = false :=
      (Bool.or_eq_false_iff.mp hpkB).1
    have hgpu : req.contains "gpu_peak_mem" = false :=
      (Bool.or_eq_false_iff.mp hpkB).2
    simp only [get_model_test_metrics, hpkB, Bool.false_eq_true, if_false,
      Except.ok.injEq] at hok
    rw [← hok, hcpu, hgpu]
    by_cases hthr : "throughputs" ∈ req
    · simp [hthr, emptyMetrics]
    · simp [hthr, emptyMetrics]

theorem get_latencies_len (winNs : Nat → ℚ) (w n : Nat) :
    (get_latencies winNs w n).2.length = n := by
  unfold get_latencies
  rw [measureLoop_spec]
  simp

/-- C7: whenever `"throughputs"` is requested, each entry of the returned
throughputs list equals `batch_size * 1000 / latency` for the latency at the
same position, and the two lists have the same length. -/
theorem get_model_test_metrics_throughputs (M : ModelOracle)
    (required_metrics : List String) (nwarmup num_iter : Nat)
    (m : TorchBenchModelMetrics)
    (hok : get_model_test_metrics M required_metrics nwarmup num_iter = .ok m)
    (hthru : required_metrics.contains "throughputs" = true) :
    m.throughputs.length = m.latencies.length ∧
    ∀ i (hi : i < m.throughputs.length) (hi2 : i < m.latencies.length),
      m.throughputs.get ⟨i, hi⟩
        = M.batch_size * 1000 / m.latencies.get ⟨i, hi2⟩ := by
  have hsh := get_model_test_metrics_ok_shape M required_metrics nwarmup
    num_iter m hok
  have hthruP : "throughputs" ∈ required_metrics := by simpa using hthru
  have hlat : m.latencies = (get_latencies M.winNs nwarmup num_iter).2 := by
    rw [hsh]
    simp [hthruP]
  have hthr2 : m.throughputs
      = m.latencies.map (fun latency => M.batch_size * 1000 / latency) := by
    rw [hsh]
    simp [hthruP]
  constructor
  · rw [hthr2]
    simp
  · intro i hi hi2
    simp only [List.get_eq_getElem]
    simp [hthr2]

/-- A concrete oracle used by the witnesses and counterexamples below. -/
def M0 : ModelOracle :=
  { winNs := fun _ => 2500000
    funcOk := fun _ => true
    probeNs := 0
    cpuMemVal := 0
    gpuMemVal := 0
    deviceIdVal := "0"
    batch_size := 8
    pt2_compilation_time_attr := none
    pt2_graph_breaks_attr := none
    ttfb_attr := none
    flopsVal := 0 }

/-- The record produced by `get_model_test_metrics M0 ["throughputs"]` with
the default warmup and iteration counts. -/
def m15 : TorchBenchModelMetrics :=
  { emptyMetrics with
      latencies := (get_latencies M0.winNs WARMUP_ROUNDS BENCHMARK_ITERS).2
      throughputs := (get_latencies M0.winNs WARMUP_ROUNDS BENCHMARK_ITERS).2.map
        (fun latency => M0.batch_size * 1000 / latency) }

theorem m15_ok :
    get_model_test_metrics M0 ["throughputs"] WARMUP_ROUNDS BENCHMARK_ITERS
      = .ok m15 := by
  simp [get_model_test_metrics, m15, emptyMetrics]

/-- Witness for C7 at the concrete input `required_metrics =
["throughputs"]`. -/
theorem get_model_test_metrics_throughputs_witness :
    m15.throughputs.length = m15.latencies.length := by
  exact (get_model_test_metrics_throughputs M0 ["throughputs"] WARMUP_ROUNDS
    BENCHMARK_ITERS m15 m15_ok (by decide)).1

/-- C3 counterexample: with `required_metrics = ["throughputs"]` the name
`"latencies"` is not in the requested set, yet the returned record's
`latencies` field is a 15-element list — not its default absent value (the
empty list) as the claim demands. -/
theorem get_model_test_metrics_latencies_counterexample :
    (["throughputs"] : List String).contains "latencies" = false ∧
    (get_model_test_metrics M0 ["throughputs"] WARMUP_ROUNDS BENCHMARK_ITERS).map
        (fun r => r.latencies.length) = .ok 15 ∧
    (get_model_test_metrics M0 ["throughputs"] WARMUP_ROUNDS BENCHMARK_ITERS).map
        (fun r => r.latencies) ≠ .ok [] := by
  have hlen : m15.latencies.length = 15 := by
    simp [m15, emptyMetrics, get_latencies_len, BENCHMARK_ITERS]
  refine ⟨by decide, ?_, ?_⟩
  · rw [m15_ok]
    simp [Except.map, hlen]
  · rw [m15_ok]
    intro hcon
    simp only [Except.map, Except.ok.injEq] at hcon
    rw [hcon] at hlen
    simp at hlen

/-- C3 amended: on success, every metric field whose name is not in
`required_metrics` is left at its default absent value, with one exception
forced by the code: `latencies` is also populated when `"throughputs"` is
requested (the throughput computation runs the latency sampler); `accuracy`
and `error_msg` are never set by this call. -/
theorem get_model_test_metrics_defaults_amended (M : ModelOracle)
    (req : List String) (nwarmup num_iter : Nat) (m : TorchBenchModelMetrics)
    (hok : get_model_test_metrics M req nwarmup num_iter = .ok m) :
    (req.contains "latencies" = false → req.contains "throughputs" = false →
      m.latencies = []) ∧
    (req.contains "throughputs" = false → m.throughputs = []) ∧
    (req.contains "cpu_peak_mem" = false → m.cpu_peak_mem = none) ∧
    (req.contains "gpu_peak_mem" = false → m.gpu_peak_mem = none) ∧
    (req.contains "ttfb" = false → m.ttfb = none) ∧
    (req.contains "pt2_compilation_time" = false → m.pt2_compilation_time = none) ∧
    (req.contains "pt2_graph_breaks" = false → m.pt2_graph_breaks = none) ∧
    (req.contains "model_flops" = false → m.model_flops = none) ∧
    m.accuracy = none ∧ m.error_msg = none := by
  have hsh := get_model_test_metrics_ok_shape M req nwarmup num_iter m hok
  refine ⟨fun h1 h2 => ?_, fun h => ?_, fun h => ?_, fun h => ?_, fun h => ?_,
    fun h => ?_, fun h => ?_, fun h => ?_, ?_, ?_⟩
  · have hp1 : "latencies" ∉ req := by simpa using h1
    have hp2 : "throughputs" ∉ req := by simpa using h2
    rw [hsh]
    simp [hp1, hp2]
  · have hp : "throughputs" ∉ req := by simpa using h
    rw [hsh]
    simp [hp]
  · have hp : "cpu_peak_mem" ∉ req := by simpa using h
    rw [hsh]
    simp [hp]
  · have hp : "gpu_peak_mem" ∉ req := by simpa using h
    rw [hsh]
    simp [hp]
  · have hp : "ttfb" ∉ req := by simpa using h
    rw [hsh]
    simp [hp]
  · have hp : "pt2_compilation_time" ∉ req := by simpa using h
    rw [hsh]
    simp [hp]
  · have hp : "pt2_graph_breaks" ∉ req := by simpa using h
    rw [hsh]
    simp [hp]
  · have hp : "model_flops" ∉ req := by simpa using h
    rw [hsh]
    simp [hp]
  · rw [hsh]
  · rw [hsh]

/-- Witness for C3 (amended) at the concrete input `required_metrics =
["throughputs"]`: the unrequested `cpu_peak_mem` and the never-assigned
`accuracy` stay absent. -/
theorem get_model_test_metrics_defaults_amended_witness :
    m15.cpu_peak_mem = none ∧ m15.accuracy = none := by
  have h := get_model_test_metrics_defaults_amended M0 ["throughputs"]
    WARMUP_ROUNDS BENCHMARK_ITERS m15 m15_ok
  exact ⟨h.2.2.1 (by decide), h.2.2.2.2.2.2.2.2.1⟩

/-! ## `get_model_accuracy` and `run_config`

`get_model_accuracy` copies the config, forces the `--accuracy` flag, loads
the model and queries its accuracy attribute — the attribute value is an
oracle here (`accuracyVal`).  `run_config(config, as_dict, dryrun)` drives
one benchmark run; `cfgMetrics` is `config.metrics`. -/

/-- `get_model_accuracy(model_config, isolated, save_output_dir)`: the extra
args of the deep-copied config after forcing `--accuracy` (prepended only
when absent), paired with the queried accuracy value. -/
def get_model_accuracy (extra_args : List String) (accuracyVal : String) :
    List String × String :=
  let accuracy_extra_args :=
    if extra_args.contains "--accuracy" then extra_args
    else "--accuracy" :: extra_args
  (accuracy_extra_args, accuracyVal)

/-- `run_config(config, as_dict, dryrun)`: on dry-run, return the all-absent
record; otherwise evaluate accuracy first when requested (removing
`"accuracy"` from the copied metric list), run the remaining metrics through
`get_model_test_metrics` on the isolated model handle, then merge the
accuracy result back if `"accuracy"` is still in the remaining list. -/
def run_config (M : ModelOracle) (cfgExtraArgs cfgMetrics : List String)
    (accuracyVal : String) (dryrun : Bool) :
    Except PeakMemError TorchBenchModelMetrics :=
  let metrics := emptyMetrics
  if dryrun then .ok metrics
  else
    let required_metrics := cfgMetrics
    let accuracy : Option String :=
      if required_metrics.contains "accuracy" then
        some (get_model_accuracy cfgExtraArgs accuracyVal).2
      else none
    let required_metrics :=
      if cfgMetrics.contains "accuracy" then cfgMetrics.erase "accuracy"
      else cfgMetrics
    match (if required_metrics.isEmpty = false then
        get_model_test_metrics M required_metrics WARMUP_ROUNDS BENCHMARK_ITERS
      else .ok metrics) with
    | .error e => .error e
    | .ok metricsRun =>
      let metricsFinal :=
        if required_metrics.contains "accuracy" then
          { metricsRun with accuracy := accuracy }
        else metricsRun
      .ok metricsFinal

/-- C1 is a code bug: with `config.metrics = ["accuracy"]` and
`dryrun = False`, `run_config` evaluates `get_model_accuracy` but then tests
`"accuracy" in required_metrics` after having removed `"accuracy"` from that
list, so the merge `metrics.accuracy = accuracy` never executes and the
returned record's accuracy field is `None` — not the evaluation result the
claim (and the otherwise-dead merge assignment in the source) calls for. -/
theorem run_config_accuracy_dropped :
    run_config M0 [] ["accuracy"] "pass" false = .ok emptyMetrics ∧
    (run_config M0 [] ["accuracy"] "pass" false).map
        (fun r => r.accuracy) = .ok none ∧
    some "pass" ≠ (none : Option String) := by
  refine ⟨?_, ?_, by simp⟩
  · simp [run_config, emptyMetrics]
  · have h : run_config M0 [] ["accuracy"] "pass" false = .ok emptyMetrics := by
      simp [run_config, emptyMetrics]
    rw [h]
    simp [Except.map, emptyMetrics]

/-! ## `userbenchmark/torchao/upload.py`

`_get_model_set` classifies a result file by substring tests on its name;
`post_ci_process` decorates every CSV row with nine metadata columns and
rewrites the file.  Python-level failure modes are explicit: `RuntimeError`
from the classifier, `TypeError` from a call missing a required argument,
`UnsupportedOperation` from writing to a read-only file handle. -/

/-- Python exceptions thrown by this module. -/
inductive PyError where
  | runtimeError (msg : String)
  | typeError (msg : String)
  | unsupportedOperation (msg : String)
deriving Repr, DecidableEq

/-- The Python substring test `needle in hay`: some contiguous slice of
`hay` starting at position `i` equals `needle`. -/
def pyInStr (needle hay : String) : Bool :=
  (List.range (hay.toList.length + 1)).any
    (fun i => ((hay.toList.drop i).take needle.toList.length) == needle.toList)

theorem pyInStr_iff (needle hay : String) :
    pyInStr needle hay = true ↔
      ∃ p s, hay.toList = p ++ needle.toList ++ s := by
  unfold pyInStr
  rw [List.any_eq_true]
  constructor
  · rintro ⟨i, _, htake⟩
    rw [beq_iff_eq] at htake
    refine ⟨hay.toList.take i, (hay.toList.drop i).drop needle.toList.length, ?_⟩
    rw [List.append_assoc]
    conv_lhs => rw [← List.take_append_drop i hay.toList]
    refine congrArg (hay.toList.take i ++ ·) ?_
    have hsplit := List.take_append_drop needle.toList.length (hay.toList.drop i)
    rw [htake] at hsplit
    exact hsplit.symm
  · rintro ⟨p, s, hdec⟩
    refine ⟨p.length, ?_, ?_⟩
    · rw [List.mem_range, hdec]
      simp
      omega
    · rw [beq_iff_eq, hdec, List.append_assoc, List.drop_left,
        List.take_left]

/-- `_get_model_set(filename)`: substring-classify, first match wins. -/
def get_model_set (filename : String) : Except PyError String :=
  if pyInStr "timm_models" filename then .ok "timm"
  else if pyInStr "huggingface" filename then .ok "huggingface"
  else if pyInStr "torchbench" filename then .ok "torchbench"
  else .error (.runtimeError ("Unknown model set from filename: " ++ filename))

/-- C4 counterexample: the filename `"timm"` contains the substring `"timm"`,
but `_get_model_set` raises the unrecognized-category error instead of
returning `"timm"`, because the code tests for `"timm_models"`, not
`"timm"`. -/
theorem get_model_set_timm_counterexample :
    ("timm".toList = ([] : List Char) ++ "timm".toList ++ []) ∧
    get_model_set "timm"
      = .error (.runtimeError "Unknown model set from filename: timm") := by
  constructor
  · simp
  · decide

/-- C4 amended: `_get_model_set` returns `"timm"` for filenames containing
the substring `"timm_models"` (not the bare `"timm"` of the claim),
`"huggingface"` for filenames containing `"huggingface"` (and not
`"timm_models"`), `"torchbench"` for filenames containing `"torchbench"`
(and neither of the former), and raises the unrecognized-category error
exactly when none of the three substrings occurs. -/
theorem get_model_set_amended (filename : String) :
    ((∃ p s, filename.toList = p ++ "timm_models".toList ++ s) →
      get_model_set filename = .ok "timm") ∧
    (¬ (∃ p s, filename.toList = p ++ "timm_models".toList ++ s) →
      (∃ p s, filename.toList = p ++ "huggingface".toList ++ s) →
      get_model_set filename = .ok "huggingface") ∧
    (¬ (∃ p s, filename.toList = p ++ "timm_models".toList ++ s) →
      ¬ (∃ p s, filename.toList = p ++ "huggingface".toList ++ s) →
      (∃ p s, filename.toList = p ++ "torchbench".toList ++ s) →
      get_model_set filename = .ok "torchbench") ∧
    (¬ (∃ p s, filename.toList = p ++ "timm_models".toList ++ s) →
      ¬ (∃ p s, filename.toList = p ++ "huggingface".toList ++ s) →
      ¬ (∃ p s, filename.toList = p ++ "torchbench".toList ++ s) →
      get_model_set filename
        = .error (.runtimeError
            ("Unknown model set from filename: " ++ filename))) := by
  refine ⟨fun h1 => ?_, fun h1 h2 => ?_, fun h1 h2 h3 => ?_, fun h1 h2 h3 => ?_⟩
  · have hb1 : pyInStr "timm_models" filename = true := (pyInStr_iff _ _).mpr h1
    simp [get_model_set, hb1]
  · have hb1 : pyInStr "timm_models" filename = false := by
      rw [← pyInStr_iff] at h1
      simpa using h1
    have hb2 : pyInStr "huggingface" filename = true := (pyInStr_iff _ _).mpr h2
    simp [get_model_set, hb1, hb2]
  · have hb1 : pyInStr "timm_models" filename = false := by
      rw [← pyInStr_iff] at h1
      simpa using h1
    have hb2 : pyInStr "huggingface" filename = false := by
      rw [← pyInStr_iff] at h2
      simpa using h2
    have hb3 : pyInStr "torchbench" filename = true := (pyInStr_iff _ _).mpr h3
    simp [get_model_set, hb1, hb2, hb3]
  · have hb1 : pyInStr "timm_models" filename = false := by
      rw [← pyInStr_iff] at h1
      simpa using h1
    have hb2 : pyInStr "huggingface" filename = false := by
      rw [← pyInStr_iff] at h2
      simpa using h2
    have hb3 : pyInStr "torchbench" filename = false := by
      rw [← pyInStr_iff] at h3
      simpa using h3
    simp [get_model_set, hb1, hb2, hb3]

/-- Witness for C4 (amended) at the concrete filename
`"timm_models_inference.csv"`. -/
theorem get_model_set_amended_witness :
    get_model_set "timm_models_inference.csv" = .ok "timm" := by
  exact (get_model_set_amended "timm_models_inference.csv").1
    ⟨[], "_inference.csv".toList, by decide⟩

/-- Python file open modes relevant here. -/
inductive FileMode where
  | read
  | write
deriving Repr, DecidableEq

/-- `open(path)` with no mode argument opens the file read-only
(mode `"r"`); both `open` calls in `post_ci_process` use it. -/
def pyOpenDefaultMode : FileMode := .read

/-- `csv.DictWriter(f, fieldnames, ...)`: `fieldnames` is a required
positional parameter of the constructor.  The source calls
`csv.DictWriter(csvfile)` with no `fieldnames`, so the constructor raises
`TypeError` before anything is written. -/
def dictWriterInit (fieldnames : Option (List String)) :
    Except PyError (List String) :=
  match fieldnames with
  | some fs => .ok fs
  | none => .error (.typeError
      "DictWriter.__init__ missing 1 required positional argument: fieldnames")

/-- `row.update(...)` for one key: overwrite the value when the key already
exists, otherwise append the pair, preserving dict insertion order. -/
def dictSet (row : List (String × String)) (k v : String) :
    List (String × String) :=
  if row.any (fun p => p.1 == k) then
    row.map (fun p => if p.1 == k then (k, v) else p)
  else row ++ [(k, v)]

/-- `row.update({nine metadata columns})`, applied in dict-literal order. -/
def decorateRow (meta : List (String × String)) (row : List (String × String)) :
    List (String × String) :=
  meta.foldl (fun r kv => dictSet r kv.1 kv.2) row

/-- `os.path.basename`: the part of the path after the last `/`. -/
def pyBasename (path : String) : String :=
  String.mk ((path.toList.reverse.takeWhile (fun c => c != '/')).reverse)

/-- The root part of `os.path.splitext(name)`: everything before the last
`.`, where dots leading the name do not count as extension separators. -/
def splitextRoot (name : String) : String :=
  let cs := name.toList
  let lead := cs.takeWhile (fun c => c == '.')
  let rest := cs.drop lead.length
  if rest.contains '.' then
    let ext := rest.reverse.takeWhile (fun c => c != '.')
    String.mk (lead ++ rest.take (rest.length - ext.length - 1))
  else name

/-- The body of `post_ci_process` for one path.  `envRunId` /
`envRunAttempt` model `os.environ.get` (with the source's default `0`
stringified), `torchaoVersion` models `torchao.__version__`, and `rows` is
what `csv.DictReader` yields for the file.  On success the call would
return the decorated rows it wrote; the write phase, however, opens the
file read-only and calls `csv.DictWriter(csvfile)` without the required
`fieldnames` argument. -/
def post_ci_process_one (envRunId envRunAttempt : Option String)
    (torchaoVersion : String) (path : String)
    (rows : List (List (String × String))) :
    Except PyError (List (List (String × String))) := do
  let modelset ← get_model_set path
  let test_name := "torchao_" ++ modelset ++ "_perf"
  let runner := "gcp_a100"
  let job_id := "0"
  let workflow_run_id := envRunId.getD "0"
  let workflow_run_attempt := envRunAttempt.getD "0"
  let filename := splitextRoot (pyBasename path)
  let head_repo := "pytorch/ao"
  let head_branch := "main"
  let head_sha := torchaoVersion
  let meta := [("workflow_id", workflow_run_id),
               ("run_attempt", workflow_run_attempt),
               ("test_name", test_name),
               ("runner", runner),
               ("job_id", job_id),
               ("filename", filename),
               ("head_repo", head_repo),
               ("head_branch", head_branch),
               ("head_sha", head_sha)]
  let perf_stats := rows.map (decorateRow meta)
  -- write phase: `with open(path) as csvfile: writer = csv.DictWriter(csvfile)`
  let csvfileMode := pyOpenDefaultMode
  let _fieldnames ← dictWriterInit none
  -- unreachable: the DictWriter constructor has already raised TypeError;
  -- even reaching here, the handle is read-only and writing would raise.
  if csvfileMode = FileMode.write then .ok perf_stats
  else .error (.unsupportedOperation "not writable")

/-- `post_ci_process(output_files)`: process each file in order, stopping at
the first propagated exception. -/
def post_ci_process (envRunId envRunAttempt : Option String)
    (torchaoVersion : String)
    (files : List (String × List (List (String × String)))) :
    Except PyError (List (List (List (String × String)))) :=
  files.mapM (fun f =>
    post_ci_process_one envRunId envRunAttempt torchaoVersion f.1 f.2)

/-- C2 is a code bug: for a file whose name matches a known category, the
read/decorate phase succeeds in memory, but the rewrite never happens — the
write phase calls `csv.DictWriter(csvfile)` without the required
`fieldnames` argument (raising `TypeError`), on a handle that `open(path)`
opened read-only.  `post_ci_process` therefore raises instead of rewriting
the file. -/
theorem post_ci_process_write_fails :
    post_ci_process none none "0.7.0"
        [("torchbench_inference.csv",
          [[("model", "resnet50"), ("speedup", "1.5")]])]
      = .error (.typeError
          "DictWriter.__init__ missing 1 required positional argument: fieldnames") := by
  decide

/-- The failure is not specific to one input: whenever `_get_model_set`
recognizes the filename, `post_ci_process_one` propagates the `TypeError`
from the `DictWriter` constructor for every row list and environment. -/
theorem post_ci_process_one_never_writes (envRunId envRunAttempt : Option String)
    (torchaoVersion : String) (path : String)
    (rows : List (List (String × String))) (s : String)
    (hset : get_model_set path = .ok s) :
    post_ci_process_one envRunId envRunAttempt torchaoVersion path rows
      = .error (.typeError
          "DictWriter.__init__ missing 1 required positional argument: fieldnames") := by
  unfold post_ci_process_one
  rw [hset]
  rfl

/-! ## `scripts/userbenchmark/upload_s3_csv.py`

`_get_files_to_upload` keeps the directory entries whose name the compiled
pattern matches at the start (`re.compile(match_filename).match(file_name)`).
The regex language is embedded as an abstract syntax (characters, the
wildcard dot, concatenation, alternation, Kleene star) with a derivative
matcher, and `re.match` becomes full-matching some prefix of the name. -/

/-- Abstract syntax of the filename-matching regular expressions. -/
inductive RE where
  | emptyset
  | eps
  | chr (c : Char)
  | dot
  | cat (a b : RE)
  | alt (a b : RE)
  | star (a : RE)
deriving Repr, DecidableEq

/-- Which character lists a regex matches in full. -/
inductive REMatch : RE → List Char → Prop where
  | eps : REMatch .eps []
  | chr (c : Char) : REMatch (.chr c) [c]
  | dot (c : Char) : REMatch .dot [c]
  | cat {a b : RE} {u v : List Char} :
      REMatch a u → REMatch b v → REMatch (.cat a b) (u ++ v)
  | altL {a b : RE} {u : List Char} : REMatch a u → REMatch (.alt a b) u
  | altR {a b : RE} {u : List Char} : REMatch b u → REMatch (.alt a b) u
  | starNil {a : RE} : REMatch (.star a) []
  | starCons {a : RE} {u v : List Char} :
      REMatch a u → REMatch (.star a) v → u ≠ [] → REMatch (.star a) (u ++ v)

/-- Does the regex accept the empty word. -/
def reNullable : RE → Bool
  | .emptyset => false
  | .eps => true
  | .chr _ => false
  | .dot => false
  | .cat a b => reNullable a && reNullable b
  | .alt a b => reNullable a || reNullable b
  | .star _ => true

/-- Brzozowski derivative of a regex by one character. -/
def reDeriv : RE → Char → RE
  | .emptyset, _ => .emptyset
  | .eps, _ => .emptyset
  | .chr d, c => if d = c then .eps else .emptyset
  | .dot, _ => .eps
  | .cat a b, c =>
      if reNullable a then .alt (.cat (reDeriv a c) b) (reDeriv b c)
      else .cat (reDeriv a c) b
  | .alt a b, c => .alt (reDeriv a c) (reDeriv b c)
  | .star a, c => .cat (reDeriv a c) (.star a)

/-- Full-match decision by iterated derivatives. -/
def reFullmatch (r : RE) : List Char → Bool
  | [] => reNullable r
  | c :: cs => reFullmatch (reDeriv r c) cs

theorem REMatch_emptyset_elim {s : List Char} (h : REMatch .emptyset s) :
    False := by
  cases h

theorem REMatch_eps_elim {s : List Char} (h : REMatch .eps s) : s = [] := by
  cases h
  rfl

theorem REMatch_chr_elim {c : Char} {s : List Char}
    (h : REMatch (.chr c) s) : s = [c] := by
  cases h
  rfl

theorem REMatch_dot_elim {s : List Char} (h : REMatch .dot s) :
    ∃ c, s = [c] := by
  cases h with
  | dot c => exact ⟨c, rfl⟩

theorem REMatch_cat_elim {a b : RE} {s : List Char}
    (h : REMatch (.cat a b) s) :
    ∃ u v, s = u ++ v ∧ REMatch a u ∧ REMatch b v := by
  cases h with
  | cat hu hv => exact ⟨_, _, rfl, hu, hv⟩

theorem REMatch_alt_elim {a b : RE} {s : List Char}
    (h : REMatch (.alt a b) s) : REMatch a s ∨ REMatch b s := by
  cases h with
  | altL h => exact Or.inl h
  | altR h => exact Or.inr h

theorem REMatch_star_elim {a : RE} {s : List Char}
    (h : REMatch (.star a) s) :
    s = [] ∨ ∃ u v, s = u ++ v ∧ u ≠ [] ∧ REMatch a u ∧ REMatch (.star a) v := by
  cases h with
  | starNil => exact Or.inl rfl
  | starCons hu hv hne => exact Or.inr ⟨_, _, rfl, hne, hu, hv⟩

theorem reNullable_iff (r : RE) : reNullable r = true ↔ REMatch r [] := by
  induction r with
  | emptyset =>
      simp only [reNullable, Bool.false_eq_true, false_iff]
      exact fun h => REMatch_emptyset_elim h
  | eps =>
      simp only [reNullable, true_iff]
      exact REMatch.eps
  | chr c =>
      simp only [reNullable, Bool.false_eq_true, false_iff]
      intro h
      simpa using REMatch_chr_elim h
  | dot =>
      simp only [reNullable, Bool.false_eq_true, false_iff]
      intro h
      obtain ⟨c, hc⟩ := REMatch_dot_elim h
      simp at hc
  | cat a b iha ihb =>
      simp only [reNullable, Bool.and_eq_true, iha, ihb]
      constructor
      · rintro ⟨ha, hb⟩
        exact REMatch.cat ha hb
      · intro h
        obtain ⟨u, v, huv, hu, hv⟩ := REMatch_cat_elim h
        obtain ⟨hu0, hv0⟩ := List.append_eq_nil.mp huv.symm
        subst hu0
        subst hv0
        exact ⟨hu, hv⟩
  | alt a b iha ihb =>
      simp only [reNullable, Bool.or_eq_true, iha, ihb]
      constructor
      · rintro (h | h)
        · exact REMatch.altL h
        · exact REMatch.altR h
      · intro h
        exact REMatch_alt_elim h
  | star a iha =>
      simp only [reNullable, true_iff]
      exact REMatch.starNil

theorem reDeriv_iff (c : Char) :
    ∀ (r : RE) (s : List Char), REMatch (reDeriv r c) s ↔ REMatch r (c :: s) := by
  intro r
  induction r with
  | emptyset =>
      intro s
      rw [reDeriv]
      constructor
      · intro h
        exact (REMatch_emptyset_elim h).elim
      · intro h
        exact (REMatch_emptyset_elim h).elim
  | eps =>
      intro s
      rw [reDeriv]
      constructor
      · intro h
        exact (REMatch_emptyset_elim h).elim
      · intro h
        simpa using REMatch_eps_elim h
  | chr d =>
      intro s
      rw [reDeriv]
      by_cases hdc : d = c
      · rw [if_pos hdc]
        subst hdc
        constructor
        · intro h
          have hs := REMatch_eps_elim h
          subst hs
          exact REMatch.chr d
        · intro h
          have hs := REMatch_chr_elim h
          injection hs with h1 h2
          subst h2
          exact REMatch.eps
      · rw [if_neg hdc]
        constructor
        · intro h
          exact (REMatch_emptyset_elim h).elim
        · intro h
          have hs := REMatch_chr_elim h
          injection hs with h1 h2
          exact (hdc h1.symm).elim
  | dot =>
      intro s
      rw [reDeriv]
      constructor
      · intro h
        have hs := REMatch_eps_elim h
        subst hs
        exact REMatch.dot c
      · intro h
        obtain ⟨e, he⟩ := REMatch_dot_elim h
        injection he with h1 h2
        subst h2
        exact REMatch.eps
  | cat a b iha ihb =>
      intro s
      rw [reDeriv]
      by_cases hna : reNullable a = true
      · rw [if_pos hna]
        constructor
        · intro h
          rcases REMatch_alt_elim h with h | h
          · obtain ⟨u, v, huv, hu, hv⟩ := REMatch_cat_elim h
            subst huv
            have hau := (iha u).mp hu
            have hcat := REMatch.cat hau hv
            simpa using hcat
          · have hbs := (ihb s).mp h
            have ha0 : REMatch a [] := (reNullable_iff a).mp hna
            have hcat := REMatch.cat ha0 hbs
            simpa using hcat
        · intro h
          obtain ⟨u, v, huv, hu, hv⟩ := REMatch_cat_elim h
          cases u with
          | nil =>
              simp only [List.nil_append] at huv
              subst huv
              exact REMatch.altR ((ihb s).mpr hv)
          | cons c0 u0 =>
              injection huv with h1 h2
              subst h1
              subst h2
              exact REMatch.altL (REMatch.cat ((iha u0).mpr hu) hv)
      · rw [if_neg hna]
        constructor
        · intro h
          obtain ⟨u, v, huv, hu, hv⟩ := REMatch_cat_elim h
          subst huv
          have hau := (iha u).mp hu
          have hcat := REMatch.cat hau hv
          simpa using hcat
        · intro h
          obtain ⟨u, v, huv, hu, hv⟩ := REMatch_cat_elim h
          cases u with
          | nil =>
              exact (hna ((reNullable_iff a).mpr hu)).elim
          | cons c0 u0 =>
              injection huv with h1 h2
              subst h1
              subst h2
              exact REMatch.cat ((iha u0).mpr hu) hv
  | alt a b iha ihb =>
      intro s
      rw [reDeriv]
      constructor
      · intro h
        rcases REMatch_alt_elim h with h | h
        · exact REMatch.altL ((iha s).mp h)
        · exact REMatch.altR ((ihb s).mp h)
      · intro h
        rcases REMatch_alt_elim h with h | h
        · exact REMatch.altL ((iha s).mpr h)
        · exact REMatch.altR ((ihb s).mpr h)
  | star a iha =>
      intro s
      rw [reDeriv]
      constructor
      · intro h
        obtain ⟨u, v, huv, hu, hv⟩ := REMatch_cat_elim h
        subst huv
        have hau := (iha u).mp hu
        have hst := REMatch.starCons hau hv (by simp)
        simpa using hst
      · intro h
        rcases REMatch_star_elim h with hnil | ⟨u, v, huv, hne, hu, hv⟩
        · simp at hnil
        · cases u with
          | nil => exact (hne rfl).elim
          | cons c0 u0 =>
              injection huv with h1 h2
              subst h1
              subst h2
              exact REMatch.cat ((iha u0).mpr hu) hv

theorem reFullmatch_iff : ∀ (s : List Char) (r : RE),
    reFullmatch r s = true ↔ REMatch r s := by
  intro s
  induction s with
  | nil =>
      intro r
      rw [reFullmatch]
      exact reNullable_iff r
  | cons c cs ih =>
      intro r
      rw [reFullmatch, ih (reDeriv r c)]
      exact reDeriv_iff c r cs

/-- Python `re.Pattern.match(name)` truthiness: the regex matches at the
start of the string, i.e. fully matches some leading slice of it. -/
def reMatchB (r : RE) (s : List Char) : Bool :=
  (List.range (s.length + 1)).any (fun i => reFullmatch r (s.take i))

theorem reMatchB_iff (r : RE) (s : List Char) :
    reMatchB r s = true ↔ ∃ p q, s = p ++ q ∧ REMatch r p := by
  unfold reMatchB
  rw [List.any_eq_true]
  constructor
  · rintro ⟨i, _, hf⟩
    exact ⟨s.take i, s.drop i, (List.take_append_drop i s).symm,
      (reFullmatch_iff _ _).mp hf⟩
  · rintro ⟨p, q, hs, hm⟩
    refine ⟨p.length, ?_, ?_⟩
    · rw [List.mem_range, hs]
      simp
      omega
    · rw [hs, List.take_left]
      exact (reFullmatch_iff _ _).mpr hm

/-- `_get_files_to_upload(file_path, match_filename)`: the list
comprehension keeping exactly the `os.listdir` entries whose name the
compiled pattern matches at position 0, in listing order. -/
def get_files_to_upload (listing : List (List Char)) (match_filename : RE) :
    List (List Char) :=
  listing.filter (fun file_name => reMatchB match_filename file_name)

/-- C10: for every directory listing and every regex,
`_get_files_to_upload` returns a sublist of the listing (same order, no
duplication) whose members are exactly the entries some prefix of which the
regex matches in full (`re.match` semantics), and no entry that fails to
match. -/
theorem get_files_to_upload_spec (listing : List (List Char)) (r : RE) :
    (get_files_to_upload listing r).Sublist listing ∧
    ∀ name, name ∈ get_files_to_upload listing r ↔
      (name ∈ listing ∧ ∃ p q, name = p ++ q ∧ REMatch r p) := by
  constructor
  · exact List.filter_sublist listing
  · intro name
    rw [get_files_to_upload, List.mem_filter, reMatchB_iff]

/-- The pattern `foo.*`. -/
def reFooDotStar : RE :=
  .cat (.chr 'f') (.cat (.chr 'o') (.cat (.chr 'o') (.star .dot)))

/-- Witness for C10 at a concrete directory listing and the pattern
`foo.*`: the entry `foo.json` is selected. -/
theorem get_files_to_upload_spec_witness :
    "foo.json".toList ∈
      get_files_to_upload ["foo.json".toList, "bar.txt".toList] reFooDotStar := by
  refine ((get_files_to_upload_spec ["foo.json".toList, "bar.txt".toList]
      reFooDotStar).2 "foo.json".toList).mpr ?_
  refine ⟨by decide, "foo".toList, ".json".toList, by decide, ?_⟩
  exact (reFullmatch_iff "foo".toList reFooDotStar).mp (by decide)
